import Mathlib

/-!
# Peer registry and outbound dispatcher of `qln/netio.go`

A shallow embedding of `TCPListener` (its accept loop), `DialPeer`,
`OutMessager`, `GetConnectedPeerList`, `ConnectedToPeer`, `IdKey` and
`SendChat`.  A node is a record of the registry `RemoteCons`, the mutex
`RemoteMtx`, the outbound queue `OmniOut`, and a trace of what the code did
(mutex operations, registry accesses, session writes, reader goroutines
started, console output), oldest event first.  The network, the peer-index
resolver and the wallet are an environment `Env` of functions.

Each function is run from its first statement to its return, so `Lock` never
waits; what one operation does between two others is read off its events.
Of `TCPListener` the accept loop is embedded, not the set-up of the
listener.  `GetPeerIdx`, `Dial` and `Write` act on the database and the
network only, not on the registry.
-/

namespace qln

/-- The Go type `uint32` of peer indices; no arithmetic is done on them. -/
abbrev uint32 := Nat

/-- The Go type `[]byte`. -/
abbrev Bytes := List UInt8

/-- The bytes of a Go string holding the text `s`: the conversion
`[]byte(s)`, which is the UTF-8 encoding of the text. -/
def bytesOf (s : String) : Bytes := s.data.flatMap String.utf8EncodeChar

/-- Modelled from the spec: the Session type `lndc.LNDConn`, declared outside
`netio.go`.  `Id` stands for the identity of the connection object,
`RemotePub` for `RemotePub.SerializeCompressed()`, `RemoteAddr` for
`RemoteAddr().String()`. -/
structure LNDConn where
  Id : Nat
  RemotePub : Bytes
  RemoteAddr : String
  deriving DecidableEq, Repr

/-- Modelled from the spec: the record `RemotePeer` (index and connection),
declared outside `netio.go`. -/
structure RemotePeer where
  Idx : uint32
  Con : LNDConn
  deriving DecidableEq, Repr

/-- Modelled from the spec: the outbound envelope `lnutil.LitMsg`
(peer index, one type byte, payload), declared outside `netio.go`. -/
structure LitMsg where
  PeerIdx : uint32
  MsgType : UInt8
  Data : Bytes
  deriving DecidableEq, Repr

/-- The struct `PeerInfo` of `netio.go`. -/
structure PeerInfo where
  PeerNumber : uint32
  RemoteHost : String
  deriving DecidableEq, Repr

/-- Modelled from the spec: the address `lndc.LNAdr` handed to `DialPeer`:
an optional public key (serialized), the script address of the base58
address, and the network address string. -/
structure LNAdr where
  PubKey : Option Bytes
  Base58Adr : Bytes
  NetAddr : String
  deriving DecidableEq, Repr

/-- The struct `portxo.KeyGen` as far as `IdKey` fills it. -/
structure KeyGen where
  Depth : Nat
  Step : List Nat
  deriving DecidableEq, Repr

/-- An argument of a `Printf` call, kept unformatted. -/
inductive Arg where
  | num (n : Nat)
  | str (s : String)
  | hex (b : Bytes)
  deriving DecidableEq, Repr

/-- What the code does, as seen from outside one function. -/
inductive Event where
  /-- `nd.RemoteMtx.Lock()` -/
  | lock
  /-- `nd.RemoteMtx.Unlock()` -/
  | unlock
  /-- a read `nd.RemoteCons[k]` -/
  | mapLoad (k : uint32)
  /-- an assignment `nd.RemoteCons[k] = ...` -/
  | mapStore (k : uint32)
  /-- the start of `range nd.RemoteCons` -/
  | mapRange
  /-- one entry handed out by `range nd.RemoteCons` -/
  | mapNext (k : uint32)
  /-- `c.Write(raw)` -/
  | write (c : LNDConn) (raw : Bytes)
  /-- `go nd.LNDCReader(&p)` -/
  | spawn (p : RemotePeer)
  /-- `fmt.Printf` and `log.Printf` -/
  | printf (format : String) (args : List Arg)
  deriving DecidableEq, Repr

/-- The Go map `map[uint32]*RemotePeer`: keys are unique, a stored pointer
may be nil (`none`). -/
abbrev Registry := AList (fun _ : uint32 => Option RemotePeer)

/-- The fields of `LitNode` that `netio.go` uses, and the trace. -/
structure LitNode where
  RemoteCons : Registry
  /-- Whether the mutex is held. -/
  RemoteMtx : Bool
  /-- The channel `OmniOut`, as a first-in first-out queue. -/
  OmniOut : List LitMsg
  Trace : List Event
  deriving DecidableEq

/-- The session writes of a trace, in order: connection and bytes. -/
def writes : List Event → List (LNDConn × Bytes)
  | [] => []
  | .write c raw :: es => (c, raw) :: writes es
  | _ :: es => writes es

/-- The reader goroutines started in a trace, in order. -/
def spawns : List Event → List RemotePeer
  | [] => []
  | .spawn p :: es => p :: spawns es
  | _ :: es => spawns es

/-- The collaborators of `netio.go` that are declared elsewhere.
`Write past c raw` is the result of `c.Write(raw)` when `past` are the
writes made before it. -/
structure Env where
  MSGID_TEXTCHAT : UInt8
  GetPriv : KeyGen → Nat
  GetPeerIdx : Bytes → String → Except String uint32
  Dial : Nat → String → Bytes → Except String LNDConn
  Write : List (LNDConn × Bytes) → LNDConn → Bytes → Except String Nat

/-- Appends one event to the trace. -/
def emit (nd : LitNode) (e : Event) : LitNode :=
  { nd with Trace := nd.Trace ++ [e] }

/-- The call `nd.RemoteMtx.Lock()`.  Operations are run one at a time, so a
lock is never waited for: the flag and the event are all that is kept. -/
def Lock (nd : LitNode) : LitNode :=
  emit { nd with RemoteMtx := true } .lock

/-- The call `nd.RemoteMtx.Unlock()`. -/
def Unlock (nd : LitNode) : LitNode :=
  emit { nd with RemoteMtx := false } .unlock

/-- The two-result read `_, ok := nd.RemoteCons[k]`. -/
def mapHas (nd : LitNode) (k : uint32) : LitNode × Bool :=
  (emit nd (.mapLoad k), (nd.RemoteCons.lookup k).isSome)

/-- The one-result read `nd.RemoteCons[k]`: nil (`none`) for a missing key
and for a stored nil. -/
def mapGet (nd : LitNode) (k : uint32) : LitNode × Option RemotePeer :=
  (emit nd (.mapLoad k), (nd.RemoteCons.lookup k).join)

/-- The assignment `nd.RemoteCons[k] = v`. -/
def mapSet (nd : LitNode) (k : uint32) (v : Option RemotePeer) : LitNode :=
  emit { nd with RemoteCons := nd.RemoteCons.insert k v } (.mapStore k)

/-- The function `ConnectedToPeer`. -/
def ConnectedToPeer (nd : LitNode) (peer : uint32) : LitNode × Bool :=
  let nd := Lock nd
  let (nd, ok) := mapHas nd peer
  let nd := Unlock nd
  (nd, ok)

/-- The function `IdKey`. -/
def IdKey (env : Env) : Nat :=
  env.GetPriv
    { Depth := 5
      Step := [(44 ||| 1 <<< 31) % 2 ^ 32, (0 ||| 1 <<< 31) % 2 ^ 32,
        (9 ||| 1 <<< 31) % 2 ^ 32, (0 ||| 1 <<< 31) % 2 ^ 32,
        (0 ||| 1 <<< 31) % 2 ^ 32] }

/-- What `listener.Accept()` and the type assertion of the accept loop
give: an error, something that is not an LNDC connection, or a session. -/
inductive Accepted where
  | err (e : String)
  | other
  | conn (c : LNDConn)
  deriving DecidableEq, Repr

/-- One iteration of the accept loop of `TCPListener`. -/
def TCPListenerStep (env : Env) (nd : LitNode) (a : Accepted) : LitNode :=
  match a with
  | .err e => emit nd (.printf "Listener error: %s\n" [.str e])
  | .other => emit nd (.printf "Got something that wasn't a LNDC" [])
  | .conn newConn =>
    let nd := emit nd (.printf "Incomming connection from %x on %s\n"
      [.hex newConn.RemotePub, .str newConn.RemoteAddr])
    match env.GetPeerIdx newConn.RemotePub "" with
    | .error e => emit nd (.printf "Listener error: %s\n" [.str e])
    | .ok peerIdx =>
      let nd := Lock nd
      let peer : RemotePeer := { Idx := peerIdx, Con := newConn }
      let nd := mapSet nd peerIdx (some peer)
      let nd := Unlock nd
      emit nd (.spawn peer)

/-- The accept loop of `TCPListener` over the sessions that arrive. -/
def TCPListenerLoop (env : Env) (nd : LitNode) (arrivals : List Accepted) : LitNode :=
  arrivals.foldl (TCPListenerStep env) nd

/-- The function `DialPeer`: the node afterwards and the error returned
(`none` for nil). -/
def DialPeer (env : Env) (nd : LitNode) (lnAdr : LNAdr) : LitNode × Option String :=
  let idPriv := IdKey env
  let id := match lnAdr.PubKey with
    | some pk => pk
    | none => lnAdr.Base58Adr
  match env.Dial idPriv lnAdr.NetAddr id with
  | .error e => (nd, some e)
  | .ok newConn =>
    match env.GetPeerIdx newConn.RemotePub newConn.RemoteAddr with
    | .error e => (nd, some e)
    | .ok peerIdx =>
      let nd := Lock nd
      let p : RemotePeer := { Con := newConn, Idx := peerIdx }
      let nd := mapSet nd peerIdx (some p)
      let nd := Unlock nd
      let nd := emit nd (.spawn p)
      (nd, none)

/-- The part of one `OutMessager` iteration after the membership check:
frame, lock, look the connection up, write, report, unlock.  The second
component is the panic, if the looked-up pointer is nil. -/
def OutMessagerSend (env : Env) (nd : LitNode) (msg : LitMsg) : LitNode × Option String :=
  let rawmsg := msg.MsgType :: msg.Data
  let nd := Lock nd
  let (nd, p) := mapGet nd msg.PeerIdx
  match p with
  | none => (nd, some "invalid memory address or nil pointer dereference")
  | some p =>
    let res := env.Write (writes nd.Trace) p.Con rawmsg
    let nd := emit nd (.write p.Con rawmsg)
    let nd := match res with
      | .error e => emit nd (.printf "error writing to peer %d: %s\n"
          [.num msg.PeerIdx, .str e])
      | .ok n => emit nd (.printf "type %x %d bytes to peer %d\n"
          [.num msg.MsgType.toNat, .num n, .num msg.PeerIdx])
    let nd := Unlock nd
    (nd, none)

/-- One iteration of the loop of `OutMessager`, for the received envelope. -/
def OutMessagerStep (env : Env) (nd : LitNode) (msg : LitMsg) : LitNode × Option String :=
  let (nd, ok) := ConnectedToPeer nd msg.PeerIdx
  if !ok then
    (emit nd (.printf "message type %x to peer %d but not connected\n"
      [.num msg.MsgType.toNat, .num msg.PeerIdx]), none)
  else
    OutMessagerSend env nd msg

/-- The loop of `OutMessager` over a queue: each turn receives the head of
the queue and runs one iteration; it ends waiting on the empty queue
(`none`) or with a panic. -/
def OutMessagerLoop (env : Env) : List LitMsg → LitNode → LitNode × Option String
  | [], nd => ({ nd with OmniOut := [] }, none)
  | msg :: rest, nd =>
    match OutMessagerStep env { nd with OmniOut := rest } msg with
    | (nd, none) => OutMessagerLoop env rest nd
    | (nd, some e) => (nd, some e)

/-- The function `OutMessager`, run until the queue is drained. -/
def OutMessager (env : Env) (nd : LitNode) : LitNode × Option String :=
  OutMessagerLoop env nd.OmniOut nd

/-- The loop body of `GetConnectedPeerList` over the entries in the order
`range` hands them out.  `none` is the panic on a nil pointer. -/
def peerInfos (nd : LitNode) :
    List (Sigma fun _ : uint32 => Option RemotePeer) → List PeerInfo →
      LitNode × Option (List PeerInfo)
  | [], peers => (nd, some peers)
  | ⟨k, v⟩ :: rest, peers =>
    let nd := emit nd (.mapNext k)
    match v with
    | none => (nd, none)
    | some v =>
      peerInfos nd rest (peers ++ [{ PeerNumber := k, RemoteHost := v.Con.RemoteAddr }])

/-- The function `GetConnectedPeerList`.  Go leaves the order of `range`
over a map open: `order` is the order of this call, a rearrangement of the
entries of the registry. -/
def GetConnectedPeerList (nd : LitNode)
    (order : List (Sigma fun _ : uint32 => Option RemotePeer)) :
    LitNode × Option (List PeerInfo) :=
  let nd := Lock nd
  let nd := Unlock nd
  let nd := emit nd .mapRange
  peerInfos nd order []

/-- The function `SendChat`: the node afterwards and the error returned. -/
def SendChat (env : Env) (nd : LitNode) (peer : uint32) (chat : String) :
    LitNode × Option String :=
  let (nd, ok) := ConnectedToPeer nd peer
  if !ok then
    (nd, some ("Not connected to peer " ++ toString peer))
  else
    let outMsg : LitMsg :=
      { MsgType := env.MSGID_TEXTCHAT, PeerIdx := peer, Data := bytesOf chat }
    ({ nd with OmniOut := nd.OmniOut ++ [outMsg] }, none)

/-! ## Reading a trace and a queue -/

/-- The events between the state `nd` and a later state. -/
def since (nd nd' : LitNode) : List Event := nd'.Trace.drop nd.Trace.length

/-- The console line after a write. -/
def report (msg : LitMsg) : Except String Nat → Event
  | .error e => .printf "error writing to peer %d: %s\n" [.num msg.PeerIdx, .str e]
  | .ok n => .printf "type %x %d bytes to peer %d\n"
      [.num msg.MsgType.toNat, .num n, .num msg.PeerIdx]

/-- What the queue `q` puts on the wire against the registry `reg`, read off
the registry alone: nothing for an index that is not a key, the framed
message for a stored peer, and the end of all writing at a stored nil. -/
def wire (reg : Registry) : List LitMsg → List (LNDConn × Bytes)
  | [] => []
  | msg :: rest =>
    match reg.lookup msg.PeerIdx with
    | none => wire reg rest
    | some none => []
    | some (some p) => (p.Con, msg.MsgType :: msg.Data) :: wire reg rest

/-- Whether the queue `q` ends in a panic against the registry `reg`. -/
def wireEnd (reg : Registry) : List LitMsg → Option String
  | [] => none
  | msg :: rest =>
    match reg.lookup msg.PeerIdx with
    | none => wireEnd reg rest
    | some none => some "invalid memory address or nil pointer dereference"
    | some (some _) => wireEnd reg rest

/-! ## A small network, for the examples -/

/-- The session with peer A. -/
def conA : LNDConn := { Id := 1, RemotePub := [2, 17], RemoteAddr := "10.0.0.1:2448" }

/-- The session with peer B. -/
def conB : LNDConn := { Id := 2, RemotePub := [3, 34], RemoteAddr := "10.0.0.2:2448" }

/-- A world in which A has index 1 and B index 2, both can be dialed, and
every write to B fails; the chat type byte is taken to be `0x70`. -/
def envAB : Env :=
  { MSGID_TEXTCHAT := 0x70
    GetPriv := fun _ => 7
    GetPeerIdx := fun pub _ =>
      if pub = [2, 17] then .ok 1 else if pub = [3, 34] then .ok 2 else .error "no such peer"
    Dial := fun _ adr _ =>
      if adr = "10.0.0.1:2448" then .ok conA
      else if adr = "10.0.0.2:2448" then .ok conB else .error "connection refused"
    Write := fun _ c raw => if c.Id = 2 then .error "broken pipe" else .ok raw.length }

/-- A node that has just started: nobody connected, nothing queued. -/
def fresh : LitNode := { RemoteCons := ∅, RemoteMtx := false, OmniOut := [], Trace := [] }

/-- The registry with A under 1 and B under 2. -/
def regAB : Registry :=
  AList.insert 2 (some { Idx := 2, Con := conB }) (AList.insert 1 (some { Idx := 1, Con := conA }) ∅)

/-- A node connected to A and B. -/
def nodeAB : LitNode := { fresh with RemoteCons := regAB }

/-- Three envelopes: to A, to B, to A. -/
def queueABA : List LitMsg :=
  [{ PeerIdx := 1, MsgType := 5, Data := [1] }, { PeerIdx := 2, MsgType := 6, Data := [2] },
    { PeerIdx := 1, MsgType := 7, Data := [] }]

/-! ## Connecting -/

/-- One successful connect: a dial whose handshake gives the session `c` and
whose resolve (with the dialed host) gives the index `i`, or an accepted
session `c` whose resolve (without host) gives `i`. -/
inductive Connect where
  | dial (lnAdr : LNAdr)
  | accept (c : LNDConn)
  deriving DecidableEq, Repr

/-- Runs the connect: `DialPeer`, or one turn of the accept loop of
`TCPListener` on an arriving session. -/
def Connect.run (env : Env) (nd : LitNode) : Connect → LitNode
  | .dial lnAdr => (DialPeer env nd lnAdr).1
  | .accept c => TCPListenerStep env nd (.conn c)

/-- The connect succeeds with the session `c` and resolves to the index `i`. -/
def Connect.Resolves (env : Env) (i : uint32) (c : LNDConn) : Connect → Prop
  | .dial lnAdr =>
    env.Dial (IdKey env) lnAdr.NetAddr
        (match lnAdr.PubKey with
          | some pk => pk
          | none => lnAdr.Base58Adr) = .ok c ∧
      env.GetPeerIdx c.RemotePub c.RemoteAddr = .ok i
  | .accept c' => c' = c ∧ env.GetPeerIdx c.RemotePub "" = .ok i

/-! ## The registry as the operations leave it -/

/-- No entry of the registry holds a nil pointer. -/
abbrev NoNil (reg : Registry) : Prop := ∀ e ∈ reg.entries, e.2.isSome = true

/-- Whether every access to the registry in the events falls between a
`Lock` and the next `Unlock`; `held` tells whether the mutex is held at the
start. -/
def guarded : Bool → List Event → Bool
  | _, [] => true
  | _, .lock :: es => guarded true es
  | _, .unlock :: es => guarded false es
  | held, .mapLoad _ :: es => held && guarded held es
  | held, .mapStore _ :: es => held && guarded held es
  | held, .mapRange :: es => held && guarded held es
  | held, .mapNext _ :: es => held && guarded held es
  | held, _ :: es => guarded held es

/-- The operations of `netio.go`, each run to its end: one turn of the
accept loop, a dial, one turn of the dispatcher on the head of the queue, a
peer list with its `range` order, a membership check, a chat. -/
inductive Op where
  | accept (a : Accepted)
  | dial (lnAdr : LNAdr)
  | dispatch
  | peerList (order : List (Sigma fun _ : uint32 => Option RemotePeer))
  | connected (peer : uint32)
  | sendChat (peer : uint32) (chat : String)

/-- The node after the operation. -/
def Op.run (env : Env) (nd : LitNode) : Op → LitNode
  | .accept a => TCPListenerStep env nd a
  | .dial lnAdr => (DialPeer env nd lnAdr).1
  | .dispatch =>
    match nd.OmniOut with
    | [] => nd
    | msg :: rest => (OutMessagerStep env { nd with OmniOut := rest } msg).1
  | .peerList order => (GetConnectedPeerList nd order).1
  | .connected peer => (ConnectedToPeer nd peer).1
  | .sendChat peer chat => (SendChat env nd peer chat).1

/-- The node after a sequence of operations, in the order the scheduler
lets them run. -/
def runAll (env : Env) (nd : LitNode) (ops : List Op) : LitNode :=
  ops.foldl (Op.run env) nd

/-! ## The steps of the dispatcher -/

theorem writes_append (a b : List Event) : writes (a ++ b) = writes a ++ writes b := by
  induction a with
  | nil => rfl
  | cons e es ih => cases e <;> simp [writes, ih]

theorem spawns_append (a b : List Event) : spawns (a ++ b) = spawns a ++ spawns b := by
  induction a with
  | nil => rfl
  | cons e es ih => cases e <;> simp [spawns, ih]

theorem since_of_trace {nd nd' : LitNode} (evs : List Event)
    (h : nd'.Trace = nd.Trace ++ evs) : since nd nd' = evs := by
  simp [since, h]

theorem ConnectedToPeer_eq (nd : LitNode) (peer : uint32) :
    ConnectedToPeer nd peer =
      ({ nd with RemoteMtx := false, Trace := nd.Trace ++ [.lock, .mapLoad peer, .unlock] },
        (nd.RemoteCons.lookup peer).isSome) := by
  simp [ConnectedToPeer, Lock, Unlock, mapHas, emit]

theorem OutMessagerStep_absent (env : Env) (nd : LitNode) (msg : LitMsg)
    (h : nd.RemoteCons.lookup msg.PeerIdx = none) :
    OutMessagerStep env nd msg =
      ({ nd with
          RemoteMtx := false
          Trace := nd.Trace ++ [.lock, .mapLoad msg.PeerIdx, .unlock,
            .printf "message type %x to peer %d but not connected\n"
              [.num msg.MsgType.toNat, .num msg.PeerIdx]] }, none) := by
  simp [OutMessagerStep, ConnectedToPeer_eq, h, emit]

theorem OutMessagerStep_nil (env : Env) (nd : LitNode) (msg : LitMsg)
    (h : nd.RemoteCons.lookup msg.PeerIdx = some none) :
    OutMessagerStep env nd msg =
      ({ nd with
          RemoteMtx := true
          Trace := nd.Trace ++ [.lock, .mapLoad msg.PeerIdx, .unlock, .lock,
            .mapLoad msg.PeerIdx] },
        some "invalid memory address or nil pointer dereference") := by
  simp [OutMessagerStep, ConnectedToPeer_eq, h, emit, OutMessagerSend, Lock, mapGet]

theorem OutMessagerStep_present (env : Env) (nd : LitNode) (msg : LitMsg) (p : RemotePeer)
    (h : nd.RemoteCons.lookup msg.PeerIdx = some (some p)) :
    OutMessagerStep env nd msg =
      ({ nd with
          RemoteMtx := false
          Trace := nd.Trace ++ [.lock, .mapLoad msg.PeerIdx, .unlock, .lock,
            .mapLoad msg.PeerIdx, .write p.Con (msg.MsgType :: msg.Data),
            report msg (env.Write (writes nd.Trace) p.Con (msg.MsgType :: msg.Data)),
            .unlock] }, none) := by
  simp only [OutMessagerStep, ConnectedToPeer_eq, h, emit, OutMessagerSend, Lock, mapGet, Unlock]
  simp [writes_append, writes, report]
  cases env.Write (writes nd.Trace) p.Con (msg.MsgType :: msg.Data) <;> simp

theorem OutMessagerLoop_cons (env : Env) (nd : LitNode) (msg : LitMsg) (rest : List LitMsg)
    (h : (OutMessagerStep env { nd with OmniOut := rest } msg).2 = none) :
    OutMessagerLoop env (msg :: rest) nd =
      OutMessagerLoop env rest (OutMessagerStep env { nd with OmniOut := rest } msg).1 := by
  rw [OutMessagerLoop]
  rcases hs : OutMessagerStep env { nd with OmniOut := rest } msg with ⟨nd1, r⟩
  rw [hs] at h
  simp only at h
  subst h
  rfl

theorem OutMessagerLoop_spec (env : Env) (q : List LitMsg) :
    ∀ nd : LitNode,
      (OutMessagerLoop env q nd).1.RemoteCons = nd.RemoteCons ∧
      (OutMessagerLoop env q nd).2 = wireEnd nd.RemoteCons q ∧
      ∃ evs, (OutMessagerLoop env q nd).1.Trace = nd.Trace ++ evs ∧
        writes evs = wire nd.RemoteCons q := by
  induction q with
  | nil => intro nd; exact ⟨rfl, rfl, [], by simp [OutMessagerLoop], rfl⟩
  | cons msg rest ih =>
    intro nd
    rcases hl : nd.RemoteCons.lookup msg.PeerIdx with _ | _ | p
    · have hs := OutMessagerStep_absent env { nd with OmniOut := rest } msg hl
      rw [OutMessagerLoop_cons env nd msg rest (by rw [hs]), hs]
      obtain ⟨h1, h2, evs, h3, h4⟩ := ih
        { nd with
          OmniOut := rest
          RemoteMtx := false
          Trace := nd.Trace ++ [.lock, .mapLoad msg.PeerIdx, .unlock,
            .printf "message type %x to peer %d but not connected\n"
              [.num msg.MsgType.toNat, .num msg.PeerIdx]] }
      refine ⟨h1, ?_, _, by rw [h3]; simp only [List.append_assoc]; rfl, ?_⟩
      · rw [h2]; simp [wireEnd, hl]
      · simp [writes_append, writes, h4, wire, hl]
    · have hs := OutMessagerStep_nil env { nd with OmniOut := rest } msg hl
      rw [OutMessagerLoop, hs]
      refine ⟨rfl, by simp [wireEnd, hl], _, rfl, by simp [writes, wire, hl]⟩
    · have hs := OutMessagerStep_present env { nd with OmniOut := rest } msg p hl
      rw [OutMessagerLoop_cons env nd msg rest (by rw [hs]), hs]
      obtain ⟨h1, h2, evs, h3, h4⟩ := ih
        { nd with
          OmniOut := rest
          RemoteMtx := false
          Trace := nd.Trace ++ [.lock, .mapLoad msg.PeerIdx, .unlock, .lock,
            .mapLoad msg.PeerIdx, .write p.Con (msg.MsgType :: msg.Data),
            report msg (env.Write (writes nd.Trace) p.Con (msg.MsgType :: msg.Data)),
            .unlock] }
      refine ⟨h1, ?_, _, by rw [h3]; simp only [List.append_assoc]; rfl, ?_⟩
      · rw [h2]; simp [wireEnd, hl]
      · have hr : ∀ r, writes [report msg r] = [] := by
          intro r; cases r <;> rfl
        simp only [writes_append, List.cons_append, List.nil_append, writes, h4, wire, hl]
        cases hw : env.Write (writes nd.Trace) p.Con (msg.MsgType :: msg.Data) <;>
          simp [report, writes] <;> exact h4

theorem OutMessagerLoop_congr (env : Env) (q : List LitMsg) :
    ∀ nd nd2 : LitNode, nd.RemoteCons = nd2.RemoteCons → writes nd.Trace = writes nd2.Trace →
      (OutMessagerLoop env q nd).2 = (OutMessagerLoop env q nd2).2 ∧
      ∃ evs, (OutMessagerLoop env q nd).1.Trace = nd.Trace ++ evs ∧
        (OutMessagerLoop env q nd2).1.Trace = nd2.Trace ++ evs := by
  induction q with
  | nil => intro nd nd2 _ _; exact ⟨rfl, [], by simp [OutMessagerLoop], by simp [OutMessagerLoop]⟩
  | cons msg rest ih =>
    intro nd nd2 hr hw
    rcases hl : nd.RemoteCons.lookup msg.PeerIdx with _ | _ | p
    · have hs := OutMessagerStep_absent env { nd with OmniOut := rest } msg hl
      have hs2 := OutMessagerStep_absent env { nd2 with OmniOut := rest } msg (hr ▸ hl)
      rw [OutMessagerLoop_cons env nd msg rest (by rw [hs]), hs,
        OutMessagerLoop_cons env nd2 msg rest (by rw [hs2]), hs2]
      obtain ⟨h1, evs, h2, h3⟩ := ih
        { nd with
          OmniOut := rest
          RemoteMtx := false
          Trace := nd.Trace ++ [.lock, .mapLoad msg.PeerIdx, .unlock,
            .printf "message type %x to peer %d but not connected\n"
              [.num msg.MsgType.toNat, .num msg.PeerIdx]] }
        { nd2 with
          OmniOut := rest
          RemoteMtx := false
          Trace := nd2.Trace ++ [.lock, .mapLoad msg.PeerIdx, .unlock,
            .printf "message type %x to peer %d but not connected\n"
              [.num msg.MsgType.toNat, .num msg.PeerIdx]] }
        hr (by simp [writes_append, writes, hw])
      exact ⟨h1, _, by rw [h2]; simp only [List.append_assoc]; rfl,
        by rw [h3]; simp only [List.append_assoc]⟩
    · have hs := OutMessagerStep_nil env { nd with OmniOut := rest } msg hl
      have hs2 := OutMessagerStep_nil env { nd2 with OmniOut := rest } msg (hr ▸ hl)
      rw [OutMessagerLoop, hs, OutMessagerLoop, hs2]
      exact ⟨rfl, _, rfl, rfl⟩
    · have hs := OutMessagerStep_present env { nd with OmniOut := rest } msg p hl
      have hs2 := OutMessagerStep_present env { nd2 with OmniOut := rest } msg p (hr ▸ hl)
      have hw2 : writes ({ nd2 with OmniOut := rest } : LitNode).Trace = writes nd.Trace := hw.symm
      rw [hw2] at hs2
      rw [OutMessagerLoop_cons env nd msg rest (by rw [hs]), hs,
        OutMessagerLoop_cons env nd2 msg rest (by rw [hs2]), hs2]
      obtain ⟨h1, evs, h2, h3⟩ := ih
        { nd with
          OmniOut := rest
          RemoteMtx := false
          Trace := nd.Trace ++ [.lock, .mapLoad msg.PeerIdx, .unlock, .lock,
            .mapLoad msg.PeerIdx, .write p.Con (msg.MsgType :: msg.Data),
            report msg (env.Write (writes nd.Trace) p.Con (msg.MsgType :: msg.Data)),
            .unlock] }
        { nd2 with
          OmniOut := rest
          RemoteMtx := false
          Trace := nd2.Trace ++ [.lock, .mapLoad msg.PeerIdx, .unlock, .lock,
            .mapLoad msg.PeerIdx, .write p.Con (msg.MsgType :: msg.Data),
            report msg (env.Write (writes nd.Trace) p.Con (msg.MsgType :: msg.Data)),
            .unlock] }
        hr (by
          cases env.Write (writes nd.Trace) p.Con (msg.MsgType :: msg.Data) <;>
            simp [writes_append, writes, report, hw])
      exact ⟨h1, _, by rw [h2]; simp only [List.append_assoc]; rfl,
        by rw [h3]; simp only [List.append_assoc]⟩

theorem OutMessagerLoop_drains (env : Env) (q : List LitMsg) :
    ∀ nd : LitNode, (OutMessagerLoop env q nd).2 = none →
      (OutMessagerLoop env q nd).1.OmniOut = [] := by
  induction q with
  | nil => intro nd _; rfl
  | cons msg rest ih =>
    intro nd h
    rw [OutMessagerLoop] at h ⊢
    rcases hs : OutMessagerStep env { nd with OmniOut := rest } msg with ⟨nd1, _ | e⟩
    · rw [hs] at h; exact ih nd1 h
    · rw [hs] at h; simp at h

theorem wire_present (reg : Registry) (q : List LitMsg)
    (h : ∀ msg ∈ q, ∃ p, reg.lookup msg.PeerIdx = some (some p)) :
    wireEnd reg q = none ∧
    List.Forall₂ (fun msg w => ∃ p, reg.lookup msg.PeerIdx = some (some p) ∧
      w = (p.Con, msg.MsgType :: msg.Data)) q (wire reg q) := by
  induction q with
  | nil => exact ⟨rfl, List.Forall₂.nil⟩
  | cons msg rest ih =>
    obtain ⟨p, hp⟩ := h msg (List.mem_cons_self _ _)
    have ih := ih fun m hm => h m (List.mem_cons_of_mem _ hm)
    simp only [wireEnd, wire, hp]
    exact ⟨ih.1, List.Forall₂.cons ⟨p, hp, rfl⟩ ih.2⟩

/-! ## The dispatcher: order, unknown peers, failed writes -/

/-- C1: against a registry that holds a peer for every queued envelope,
`OutMessager` drains the queue without panic, leaves the registry as it was,
and the session writes it adds to the trace are, in queue order, exactly one
per envelope: to the connection stored under the envelope's `PeerIdx`, with
the bytes `MsgType` followed by `Data`. -/
theorem OutMessager_writes_in_queue_order (env : Env) (nd : LitNode)
    (h : ∀ msg ∈ nd.OmniOut, ∃ p, nd.RemoteCons.lookup msg.PeerIdx = some (some p)) :
    (OutMessager env nd).2 = none ∧
    (OutMessager env nd).1.OmniOut = [] ∧
    (OutMessager env nd).1.RemoteCons = nd.RemoteCons ∧
    nd.Trace <+: (OutMessager env nd).1.Trace ∧
    List.Forall₂
      (fun msg w => ∃ p, nd.RemoteCons.lookup msg.PeerIdx = some (some p) ∧
        w = (p.Con, msg.MsgType :: msg.Data))
      nd.OmniOut (writes (since nd (OutMessager env nd).1)) := by
  obtain ⟨h1, h2, evs, h3, h4⟩ := OutMessagerLoop_spec env nd.OmniOut nd
  obtain ⟨h5, h6⟩ := wire_present nd.RemoteCons nd.OmniOut h
  have h7 : (OutMessager env nd).2 = none := by rw [OutMessager, h2, h5]
  refine ⟨h7, OutMessagerLoop_drains env nd.OmniOut nd h7, h1, ⟨evs, h3.symm⟩, ?_⟩
  rw [since_of_trace _ (show (OutMessager env nd).1.Trace = nd.Trace ++ evs from h3), h4]
  exact h6

/-- C1, on the queue E1 to A, E2 to B, E3 to A: the three writes come out in
the order E1, E2, E3 across the two sessions. -/
theorem OutMessager_writes_in_queue_order_witness :
    (∀ msg ∈ ({ nodeAB with OmniOut := queueABA } : LitNode).OmniOut,
      ∃ p, ({ nodeAB with OmniOut := queueABA } : LitNode).RemoteCons.lookup msg.PeerIdx
        = some (some p)) ∧
    writes (since { nodeAB with OmniOut := queueABA }
      (OutMessager envAB { nodeAB with OmniOut := queueABA }).1)
      = [(conA, [5, 1]), (conB, [6, 2]), (conA, [7])] ∧
    List.Forall₂
      (fun msg w => ∃ p, regAB.lookup msg.PeerIdx = some (some p) ∧
        w = (p.Con, msg.MsgType :: msg.Data))
      queueABA
      (writes (since { nodeAB with OmniOut := queueABA }
        (OutMessager envAB { nodeAB with OmniOut := queueABA }).1)) :=
  have h : ∀ msg ∈ ({ nodeAB with OmniOut := queueABA } : LitNode).OmniOut,
      ∃ p, ({ nodeAB with OmniOut := queueABA } : LitNode).RemoteCons.lookup msg.PeerIdx
        = some (some p) := by
    intro msg hm
    simp only [queueABA, List.mem_cons, List.mem_singleton, List.not_mem_nil, or_false] at hm
    rcases hm with rfl | rfl | rfl
    · exact ⟨{ Idx := 1, Con := conA }, by decide⟩
    · exact ⟨{ Idx := 2, Con := conB }, by decide⟩
    · exact ⟨{ Idx := 1, Con := conA }, by decide⟩
  ⟨h, by decide,
    (OutMessager_writes_in_queue_order envAB { nodeAB with OmniOut := queueABA } h).2.2.2.2⟩

/-- C2: when the index of the received envelope is not a key of the
registry, the iteration makes no session write, does not panic, leaves the
registry as it was, and the loop goes on with the rest of the queue from the
state it left; what is then written, how the loop ends and the final
registry are those of the queue without that envelope, and the events of
the loop after this iteration are, one for one, the events of the loop on
the queue without it. -/
theorem OutMessager_skips_unknown_peer (env : Env) (nd : LitNode) (msg : LitMsg)
    (rest : List LitMsg) (h : msg.PeerIdx ∉ nd.RemoteCons) :
    (OutMessagerStep env { nd with OmniOut := rest } msg).2 = none ∧
    writes (since nd (OutMessagerStep env { nd with OmniOut := rest } msg).1) = [] ∧
    (OutMessagerStep env { nd with OmniOut := rest } msg).1.RemoteCons = nd.RemoteCons ∧
    (OutMessagerStep env { nd with OmniOut := rest } msg).1.OmniOut = rest ∧
    OutMessager env { nd with OmniOut := msg :: rest } =
      OutMessager env (OutMessagerStep env { nd with OmniOut := rest } msg).1 ∧
    writes (since nd (OutMessager env { nd with OmniOut := msg :: rest }).1) =
      writes (since nd (OutMessager env { nd with OmniOut := rest }).1) ∧
    (OutMessager env { nd with OmniOut := msg :: rest }).2 =
      (OutMessager env { nd with OmniOut := rest }).2 ∧
    (OutMessager env { nd with OmniOut := msg :: rest }).1.RemoteCons =
      (OutMessager env { nd with OmniOut := rest }).1.RemoteCons ∧
    since (OutMessagerStep env { nd with OmniOut := rest } msg).1
        (OutMessager env (OutMessagerStep env { nd with OmniOut := rest } msg).1).1 =
      since nd (OutMessager env { nd with OmniOut := rest }).1 := by
  have hl : nd.RemoteCons.lookup msg.PeerIdx = none := AList.lookup_eq_none.mpr h
  have hs := OutMessagerStep_absent env { nd with OmniOut := rest } msg hl
  have hc := OutMessagerLoop_congr env rest
    (OutMessagerStep env { nd with OmniOut := rest } msg).1 { nd with OmniOut := rest }
    (by rw [hs]) (by rw [hs]; simp [writes_append, writes])
  have hq : (OutMessagerStep env { nd with OmniOut := rest } msg).1.OmniOut = rest := by rw [hs]
  obtain ⟨a1, a2, ea, a3, a4⟩ :=
    OutMessagerLoop_spec env (msg :: rest) { nd with OmniOut := msg :: rest }
  obtain ⟨b1, b2, eb, b3, b4⟩ := OutMessagerLoop_spec env rest { nd with OmniOut := rest }
  refine ⟨by rw [hs], ?_, by rw [hs], by rw [hs], ?_, ?_, ?_, ?_, ?_⟩
  rotate_right
  · obtain ⟨_, evs, c1, c2⟩ := hc
    have e1 : since (OutMessagerStep env { nd with OmniOut := rest } msg).1
        (OutMessager env (OutMessagerStep env { nd with OmniOut := rest } msg).1).1 = evs := by
      apply since_of_trace
      rw [OutMessager, hq]
      exact c1
    have e2 : since nd (OutMessager env { nd with OmniOut := rest }).1 = evs :=
      since_of_trace _ c2
    rw [e1, e2]
  · rw [hs, since_of_trace ([.lock, .mapLoad msg.PeerIdx, .unlock,
      .printf "message type %x to peer %d but not connected\n"
        [.num msg.MsgType.toNat, .num msg.PeerIdx]]) rfl]
    rfl
  · show OutMessagerLoop env (msg :: rest) _ = OutMessagerLoop env _ _
    rw [OutMessagerLoop_cons env _ msg rest (by rw [hs]), hs]
  · have ha : since nd (OutMessager env { nd with OmniOut := msg :: rest }).1 = ea :=
      since_of_trace _ a3
    have hb : since nd (OutMessager env { nd with OmniOut := rest }).1 = eb :=
      since_of_trace _ b3
    rw [ha, hb, a4, b4]
    simp [wire, hl]
  · rw [OutMessager, OutMessager, a2, b2]
    simp [wireEnd, hl]
  · rw [OutMessager, OutMessager, a1, b1]

/-- C2, on the node connected to A and B: an envelope for index 7 is
skipped without a write, and the envelope for A behind it is written. -/
theorem OutMessager_skips_unknown_peer_witness :
    (7 : uint32) ∉ nodeAB.RemoteCons ∧
    writes (since nodeAB (OutMessagerStep envAB
      { nodeAB with OmniOut := [{ PeerIdx := 1, MsgType := 7, Data := [] }] }
      { PeerIdx := 7, MsgType := 1, Data := [9] }).1) = [] ∧
    (OutMessagerStep envAB { nodeAB with OmniOut := [{ PeerIdx := 1, MsgType := 7, Data := [] }] }
      { PeerIdx := 7, MsgType := 1, Data := [9] }).1.RemoteCons = nodeAB.RemoteCons ∧
    writes (since nodeAB (OutMessager envAB { nodeAB with OmniOut :=
      [{ PeerIdx := 7, MsgType := 1, Data := [9] }, { PeerIdx := 1, MsgType := 7, Data := [] }] }).1)
      = [(conA, [7])] :=
  have h : (7 : uint32) ∉ nodeAB.RemoteCons := by decide
  have t := OutMessager_skips_unknown_peer envAB nodeAB
    { PeerIdx := 7, MsgType := 1, Data := [9] } [{ PeerIdx := 1, MsgType := 7, Data := [] }] h
  ⟨h, t.2.1, t.2.2.1, by decide⟩

/-- C3: when the registry holds the peer `p` of the received envelope and
the write to its session returns an error, the iteration does not panic, its
events are one membership check under the mutex, then lock, lookup, that one
write, the error report and unlock (so the write is made once and the mutex
is free afterwards), the registry is what it was, and the loop goes on with
the rest of the queue from the state the iteration left. -/
theorem OutMessager_survives_write_error (env : Env) (nd : LitNode) (msg : LitMsg)
    (rest : List LitMsg) (p : RemotePeer) (e : String)
    (hp : nd.RemoteCons.lookup msg.PeerIdx = some (some p))
    (hw : env.Write (writes nd.Trace) p.Con (msg.MsgType :: msg.Data) = .error e) :
    (OutMessagerStep env { nd with OmniOut := rest } msg).2 = none ∧
    (OutMessagerStep env { nd with OmniOut := rest } msg).1.RemoteCons = nd.RemoteCons ∧
    (OutMessagerStep env { nd with OmniOut := rest } msg).1.RemoteMtx = false ∧
    (OutMessagerStep env { nd with OmniOut := rest } msg).1.OmniOut = rest ∧
    since nd (OutMessagerStep env { nd with OmniOut := rest } msg).1 =
      [.lock, .mapLoad msg.PeerIdx, .unlock, .lock, .mapLoad msg.PeerIdx,
        .write p.Con (msg.MsgType :: msg.Data),
        .printf "error writing to peer %d: %s\n" [.num msg.PeerIdx, .str e], .unlock] ∧
    writes (since nd (OutMessagerStep env { nd with OmniOut := rest } msg).1) =
      [(p.Con, msg.MsgType :: msg.Data)] ∧
    OutMessager env { nd with OmniOut := msg :: rest } =
      OutMessager env (OutMessagerStep env { nd with OmniOut := rest } msg).1 := by
  have hs := OutMessagerStep_present env { nd with OmniOut := rest } msg p hp
  simp only [hw, report] at hs
  have ht : since nd (OutMessagerStep env { nd with OmniOut := rest } msg).1 =
      [.lock, .mapLoad msg.PeerIdx, .unlock, .lock, .mapLoad msg.PeerIdx,
        .write p.Con (msg.MsgType :: msg.Data),
        .printf "error writing to peer %d: %s\n" [.num msg.PeerIdx, .str e], .unlock] :=
    since_of_trace _ (by rw [hs])
  refine ⟨by rw [hs], by rw [hs], by rw [hs], by rw [hs], ht, by rw [ht]; rfl, ?_⟩
  show OutMessagerLoop env (msg :: rest) _ = OutMessagerLoop env _ _
  rw [OutMessagerLoop_cons env _ msg rest (by rw [hs]), hs]

/-- C3, on the node connected to A and B where writes to B fail: the
envelope for B is written once, B stays in the registry, and the envelope
for A behind it is written. -/
theorem OutMessager_survives_write_error_witness :
    (OutMessagerStep envAB { nodeAB with OmniOut := [{ PeerIdx := 1, MsgType := 7, Data := [] }] }
      { PeerIdx := 2, MsgType := 6, Data := [2] }).1.RemoteCons = regAB ∧
    writes (since nodeAB (OutMessagerStep envAB
      { nodeAB with OmniOut := [{ PeerIdx := 1, MsgType := 7, Data := [] }] }
      { PeerIdx := 2, MsgType := 6, Data := [2] }).1) = [(conB, [6, 2])] ∧
    writes (OutMessager envAB { nodeAB with OmniOut :=
      [{ PeerIdx := 2, MsgType := 6, Data := [2] }, { PeerIdx := 1, MsgType := 7, Data := [] }] }).1.Trace
      = [(conB, [6, 2]), (conA, [7])] :=
  have t := OutMessager_survives_write_error envAB nodeAB
    { PeerIdx := 2, MsgType := 6, Data := [2] } [{ PeerIdx := 1, MsgType := 7, Data := [] }]
    { Idx := 2, Con := conB } "broken pipe" (by decide) rfl
  ⟨t.2.1, t.2.2.2.2.2.1, by decide⟩

/-! ## `SendChat` -/

theorem SendChat_absent (env : Env) (nd : LitNode) (peer : uint32) (chat : String)
    (h : peer ∉ nd.RemoteCons) :
    SendChat env nd peer chat =
      ({ nd with RemoteMtx := false, Trace := nd.Trace ++ [.lock, .mapLoad peer, .unlock] },
        some ("Not connected to peer " ++ toString peer)) := by
  have hl : nd.RemoteCons.lookup peer = none := AList.lookup_eq_none.mpr h
  simp [SendChat, ConnectedToPeer_eq, hl]

theorem SendChat_present (env : Env) (nd : LitNode) (peer : uint32) (chat : String)
    (h : peer ∈ nd.RemoteCons) :
    SendChat env nd peer chat =
      ({ nd with
          RemoteMtx := false
          Trace := nd.Trace ++ [.lock, .mapLoad peer, .unlock]
          OmniOut := nd.OmniOut ++
            [{ PeerIdx := peer, MsgType := env.MSGID_TEXTCHAT, Data := bytesOf chat }] },
        none) := by
  have hl : (nd.RemoteCons.lookup peer).isSome = true := AList.lookup_isSome.mpr h
  simp [SendChat, ConnectedToPeer_eq, hl]

/-- C4: `SendChat` returns an error, and then the error "Not connected to
peer" with the index, exactly when the index is not a key of the registry,
which is when `ConnectedToPeer` returns false.  In that case the queue is
what it was, `SendChat` makes no session write, and what the dispatcher
writes afterwards is what it would have written without the call.  The
registry is unchanged whether the peer is connected or not. -/
theorem SendChat_error_iff_not_connected (env : Env) (nd : LitNode) (peer : uint32)
    (chat : String) :
    ((SendChat env nd peer chat).2 ≠ none ↔ peer ∉ nd.RemoteCons) ∧
    ((SendChat env nd peer chat).2 = some ("Not connected to peer " ++ toString peer) ↔
      peer ∉ nd.RemoteCons) ∧
    (peer ∉ nd.RemoteCons ↔ (ConnectedToPeer nd peer).2 = false) ∧
    (peer ∉ nd.RemoteCons →
      (SendChat env nd peer chat).1.OmniOut = nd.OmniOut ∧
      writes (since nd (SendChat env nd peer chat).1) = [] ∧
      writes (since (SendChat env nd peer chat).1
          (OutMessager env (SendChat env nd peer chat).1).1) =
        writes (since nd (OutMessager env nd).1)) ∧
    (SendChat env nd peer chat).1.RemoteCons = nd.RemoteCons := by
  by_cases h : peer ∈ nd.RemoteCons
  · have hs := SendChat_present env nd peer chat h
    refine ⟨by simp [hs, h], by simp [hs, h], ?_, fun hn => absurd h hn, by rw [hs]⟩
    simp [ConnectedToPeer_eq, h, AList.lookup_isSome.mpr h]
  · have hs := SendChat_absent env nd peer chat h
    refine ⟨by simp [hs, h], by simp [hs, h], ?_, fun _ => ⟨by rw [hs], ?_, ?_⟩, by rw [hs]⟩
    · simp [ConnectedToPeer_eq, h, AList.lookup_eq_none.mpr h]
    · rw [hs, since_of_trace ([.lock, .mapLoad peer, .unlock]) rfl]
      rfl
    · obtain ⟨_, _, ea, a3, a4⟩ := OutMessagerLoop_spec env nd.OmniOut nd
      obtain ⟨_, _, eb, b3, b4⟩ := OutMessagerLoop_spec env
        (SendChat env nd peer chat).1.OmniOut (SendChat env nd peer chat).1
      have ha : since nd (OutMessager env nd).1 = ea := since_of_trace _ a3
      have hb : since (SendChat env nd peer chat).1
          (OutMessager env (SendChat env nd peer chat).1).1 = eb := since_of_trace _ b3
      rw [ha, hb, a4, b4, hs]

/-- C4, for index 7 and the text "hi" on a fresh node: the error is
returned and nothing is queued. -/
theorem SendChat_error_iff_not_connected_witness :
    (SendChat envAB fresh 7 "hi").2 = some "Not connected to peer 7" ∧
    (7 : uint32) ∉ fresh.RemoteCons ∧
    (SendChat envAB fresh 7 "hi").1.OmniOut = [] ∧
    writes (since fresh (SendChat envAB fresh 7 "hi").1) = [] :=
  have h : (7 : uint32) ∉ fresh.RemoteCons := by decide
  have t := (SendChat_error_iff_not_connected envAB fresh 7 "hi").2.2.2.1 h
  ⟨by decide, h, t.1, t.2.1⟩

/-- C5: for an index that is a key of the registry, `SendChat` returns nil,
leaves the registry as it was and appends to the queue exactly the envelope
with that index, the type `MSGID_TEXTCHAT` and the bytes of the text; and
when the registry holds the peer `p` there, the dispatcher iteration that
receives this envelope writes to the session of `p`, once, the
`MSGID_TEXTCHAT` byte followed by the bytes of the text. -/
theorem SendChat_enqueues_textchat (env : Env) (nd : LitNode) (peer : uint32) (chat : String)
    (h : peer ∈ nd.RemoteCons) :
    (SendChat env nd peer chat).2 = none ∧
    (SendChat env nd peer chat).1.OmniOut = nd.OmniOut ++
      [{ PeerIdx := peer, MsgType := env.MSGID_TEXTCHAT, Data := bytesOf chat }] ∧
    (SendChat env nd peer chat).1.RemoteCons = nd.RemoteCons ∧
    ∀ p, nd.RemoteCons.lookup peer = some (some p) →
      writes (since (SendChat env nd peer chat).1
        (OutMessagerStep env (SendChat env nd peer chat).1
          { PeerIdx := peer, MsgType := env.MSGID_TEXTCHAT, Data := bytesOf chat }).1) =
        [(p.Con, env.MSGID_TEXTCHAT :: bytesOf chat)] ∧
      (nd.OmniOut = [] →
        writes (since (SendChat env nd peer chat).1
          (OutMessager env (SendChat env nd peer chat).1).1) =
          [(p.Con, env.MSGID_TEXTCHAT :: bytesOf chat)]) := by
  have hs := SendChat_present env nd peer chat h
  refine ⟨by rw [hs], by rw [hs], by rw [hs], fun p hp => ⟨?_, fun hq => ?_⟩⟩
  · have hst := OutMessagerStep_present env (SendChat env nd peer chat).1
      { PeerIdx := peer, MsgType := env.MSGID_TEXTCHAT, Data := bytesOf chat } p
      (by rw [hs]; exact hp)
    rw [since_of_trace _ (congrArg (fun r => r.1.Trace) hst)]
    cases env.Write (writes (SendChat env nd peer chat).1.Trace) p.Con
      (env.MSGID_TEXTCHAT :: bytesOf chat) <;> rfl
  · obtain ⟨_, _, eb, b3, b4⟩ := OutMessagerLoop_spec env
      (SendChat env nd peer chat).1.OmniOut (SendChat env nd peer chat).1
    have hb : since (SendChat env nd peer chat).1
        (OutMessager env (SendChat env nd peer chat).1).1 = eb := since_of_trace _ b3
    rw [hb, b4, hs]
    simp [hq, wire, hp]

/-- C5, for peer 3 and the text "hello": the bytes on the wire are the chat
type byte and then 104, 101, 108, 108, 111. -/
theorem SendChat_enqueues_textchat_witness :
    (3 : uint32) ∈ ({ fresh with RemoteCons := AList.insert 3 (some { Idx := 3, Con := conA }) ∅ }
      : LitNode).RemoteCons ∧
    (SendChat envAB { fresh with RemoteCons := AList.insert 3 (some { Idx := 3, Con := conA }) ∅ }
      3 "hello").1.OmniOut = [{ PeerIdx := 3, MsgType := 0x70, Data := [104, 101, 108, 108, 111] }] ∧
    writes (OutMessager envAB (SendChat envAB
      { fresh with RemoteCons := AList.insert 3 (some { Idx := 3, Con := conA }) ∅ }
      3 "hello").1).1.Trace = [(conA, [0x70, 104, 101, 108, 108, 111])] :=
  have h : (3 : uint32) ∈ ({ fresh with
      RemoteCons := AList.insert 3 (some { Idx := 3, Con := conA }) ∅ } : LitNode).RemoteCons := by
    decide
  ⟨h, (SendChat_enqueues_textchat envAB _ 3 "hello" h).2.1, by decide⟩

/-! ## `DialPeer` and the accept loop -/

theorem DialPeer_ok (env : Env) (nd : LitNode) (lnAdr : LNAdr) (c : LNDConn) (i : uint32)
    (h : Connect.Resolves env i c (.dial lnAdr)) :
    DialPeer env nd lnAdr =
      ({ nd with
          RemoteCons := nd.RemoteCons.insert i (some { Idx := i, Con := c })
          RemoteMtx := false
          Trace := nd.Trace ++ [.lock, .mapStore i, .unlock, .spawn { Idx := i, Con := c }] },
        none) := by
  obtain ⟨h1, h2⟩ := h
  simp [DialPeer, h1, h2, Lock, Unlock, mapSet, emit]

theorem TCPListenerStep_ok (env : Env) (nd : LitNode) (c : LNDConn) (i : uint32)
    (h : env.GetPeerIdx c.RemotePub "" = .ok i) :
    TCPListenerStep env nd (.conn c) =
      { nd with
        RemoteCons := nd.RemoteCons.insert i (some { Idx := i, Con := c })
        RemoteMtx := false
        Trace := nd.Trace ++ [.printf "Incomming connection from %x on %s\n"
            [.hex c.RemotePub, .str c.RemoteAddr],
          .lock, .mapStore i, .unlock, .spawn { Idx := i, Con := c }] } := by
  simp [TCPListenerStep, h, Lock, Unlock, mapSet, emit]

theorem connect_run_registry (env : Env) (nd : LitNode) (op : Connect) (c : LNDConn)
    (i : uint32) (h : op.Resolves env i c) :
    (op.run env nd).RemoteCons = nd.RemoteCons.insert i (some { Idx := i, Con := c }) := by
  cases op with
  | dial lnAdr => simp only [Connect.run, DialPeer_ok env nd lnAdr c i h]
  | accept c' =>
    obtain ⟨rfl, h2⟩ := h
    simp only [Connect.run, TCPListenerStep_ok env nd c' i h2]

theorem lookup_install (reg : Registry) (i k : uint32) (v : Option RemotePeer) :
    (reg.insert i v).lookup k = if k = i then some v else reg.lookup k := by
  by_cases hk : k = i
  · subst hk; simp
  · simp [hk, AList.lookup_insert_ne hk]

/-- C6: when `DialPeer` returns an error, the node is left exactly as it
was: the registry is the one before the call and no reader is started;
and the error is that of the handshake, or that of `GetPeerIdx` after a
handshake that succeeded. -/
theorem DialPeer_error_leaves_registry (env : Env) (nd : LitNode) (lnAdr : LNAdr) (e : String)
    (h : (DialPeer env nd lnAdr).2 = some e) :
    (DialPeer env nd lnAdr).1 = nd ∧
    (DialPeer env nd lnAdr).1.RemoteCons = nd.RemoteCons ∧
    spawns (since nd (DialPeer env nd lnAdr).1) = [] ∧
    (env.Dial (IdKey env) lnAdr.NetAddr
        (match lnAdr.PubKey with
          | some pk => pk
          | none => lnAdr.Base58Adr) = .error e ∨
      ∃ c, env.Dial (IdKey env) lnAdr.NetAddr
          (match lnAdr.PubKey with
            | some pk => pk
            | none => lnAdr.Base58Adr) = .ok c ∧
        env.GetPeerIdx c.RemotePub c.RemoteAddr = .error e) := by
  have key : (DialPeer env nd lnAdr).1 = nd ∧
      (env.Dial (IdKey env) lnAdr.NetAddr
        (match lnAdr.PubKey with
          | some pk => pk
          | none => lnAdr.Base58Adr) = .error e ∨
      ∃ c, env.Dial (IdKey env) lnAdr.NetAddr
          (match lnAdr.PubKey with
            | some pk => pk
            | none => lnAdr.Base58Adr) = .ok c ∧
        env.GetPeerIdx c.RemotePub c.RemoteAddr = .error e) := by
    unfold DialPeer at h ⊢
    simp only at h ⊢
    rcases hd : env.Dial (IdKey env) lnAdr.NetAddr
        (match lnAdr.PubKey with
          | some pk => pk
          | none => lnAdr.Base58Adr) with e1 | c
    · rw [hd] at h
      simp only [Option.some.injEq] at h
      subst h
      exact ⟨rfl, Or.inl rfl⟩
    · rw [hd] at h
      simp only at h ⊢
      rcases hg : env.GetPeerIdx c.RemotePub c.RemoteAddr with e2 | i
      · rw [hg] at h
        simp only [Option.some.injEq] at h
        subst h
        exact ⟨rfl, Or.inr ⟨c, rfl, hg⟩⟩
      · rw [hg] at h
        simp at h
  refine ⟨key.1, by rw [key.1], ?_, key.2⟩
  rw [key.1]
  simp [since, spawns]

/-- C6, dialing an address nobody listens on, with A already connected. -/
theorem DialPeer_error_leaves_registry_witness :
    (DialPeer envAB nodeAB { PubKey := none, Base58Adr := [], NetAddr := "10.9.9.9:1" }).2
      = some "connection refused" ∧
    (DialPeer envAB nodeAB { PubKey := none, Base58Adr := [], NetAddr := "10.9.9.9:1" }).1.RemoteCons
      = regAB ∧
    spawns (since nodeAB
      (DialPeer envAB nodeAB { PubKey := none, Base58Adr := [], NetAddr := "10.9.9.9:1" }).1) = [] :=
  have h : (DialPeer envAB nodeAB { PubKey := none, Base58Adr := [], NetAddr := "10.9.9.9:1" }).2
      = some "connection refused" := by decide
  have t := DialPeer_error_leaves_registry envAB nodeAB
    { PubKey := none, Base58Adr := [], NetAddr := "10.9.9.9:1" } "connection refused" h
  ⟨h, t.2.1, t.2.2.1⟩

/-- C7: `DialPeer` returns nil exactly when the connect succeeds with some
session and index.  A successful connect (a dial, or a session accepted by
the listener and resolved) with session `c` and index `i` leaves the
registry with `i` mapped to the peer of index `i` and connection `c` and
every other key as before, and starts one reader for that peer.  After
two successful connects with distinct indices `i` and `j`, run in either
order, the registry holds both peers, and the two orders agree on every
key. -/
theorem connect_installs_peer (env : Env) (nd : LitNode) (op1 op2 : Connect)
    (i j : uint32) (c1 c2 : LNDConn)
    (h1 : op1.Resolves env i c1) (h2 : op2.Resolves env j c2) (hij : i ≠ j) :
    (∀ lnAdr, (DialPeer env nd lnAdr).2 = none ↔
      ∃ i' c', Connect.Resolves env i' c' (.dial lnAdr)) ∧
    (∀ k, (op1.run env nd).RemoteCons.lookup k =
      if k = i then some (some { Idx := i, Con := c1 }) else nd.RemoteCons.lookup k) ∧
    spawns (since nd (op1.run env nd)) = [{ Idx := i, Con := c1 }] ∧
    (op2.run env (op1.run env nd)).RemoteCons.lookup i = some (some { Idx := i, Con := c1 }) ∧
    (op2.run env (op1.run env nd)).RemoteCons.lookup j = some (some { Idx := j, Con := c2 }) ∧
    (op1.run env (op2.run env nd)).RemoteCons.lookup i = some (some { Idx := i, Con := c1 }) ∧
    (op1.run env (op2.run env nd)).RemoteCons.lookup j = some (some { Idx := j, Con := c2 }) ∧
    (∀ k, (op2.run env (op1.run env nd)).RemoteCons.lookup k =
      (op1.run env (op2.run env nd)).RemoteCons.lookup k) ∧
    (∀ k, k ≠ i → k ≠ j → (op2.run env (op1.run env nd)).RemoteCons.lookup k =
      nd.RemoteCons.lookup k) := by
  have r1 := fun nd0 => connect_run_registry env nd0 op1 c1 i h1
  have r2 := fun nd0 => connect_run_registry env nd0 op2 c2 j h2
  have hji : j ≠ i := fun h => hij h.symm
  refine ⟨?_, ?_, ?_, ?_, ?_, ?_, ?_, ?_, ?_⟩
  · intro lnAdr
    constructor
    · intro hn
      unfold DialPeer at hn
      simp only at hn
      rcases hd : env.Dial (IdKey env) lnAdr.NetAddr
          (match lnAdr.PubKey with
            | some pk => pk
            | none => lnAdr.Base58Adr) with e1 | c
      · rw [hd] at hn; simp at hn
      · rw [hd] at hn
        simp only at hn
        rcases hg : env.GetPeerIdx c.RemotePub c.RemoteAddr with e2 | i'
        · rw [hg] at hn; simp at hn
        · exact ⟨i', c, hd, hg⟩
    · rintro ⟨i', c', hr⟩
      rw [DialPeer_ok env nd lnAdr c' i' hr]
  · intro k
    rw [r1, lookup_install]
  · cases op1 with
    | dial lnAdr =>
      simp only [Connect.run, DialPeer_ok env nd lnAdr c1 i h1]
      rw [since_of_trace ([.lock, .mapStore i, .unlock, .spawn { Idx := i, Con := c1 }]) rfl]
      rfl
    | accept c' =>
      obtain ⟨rfl, h1'⟩ := h1
      simp only [Connect.run, TCPListenerStep_ok env nd c' i h1']
      rw [since_of_trace ([.printf "Incomming connection from %x on %s\n"
            [.hex c'.RemotePub, .str c'.RemoteAddr],
          .lock, .mapStore i, .unlock, .spawn { Idx := i, Con := c' }]) rfl]
      rfl
  · rw [r2, r1, lookup_install, lookup_install]; simp [hij]
  · rw [r2, lookup_install]; simp
  · rw [r1, lookup_install]; simp
  · rw [r1, r2, lookup_install, lookup_install]; simp [hji]
  · intro k
    rw [r2, r1, r1, r2]
    simp only [lookup_install]
    by_cases hk : k = i
    · subst hk; simp [hij]
    · simp [hk]
  · intro k hki hkj
    rw [r2, r1, lookup_install, lookup_install]
    simp [hki, hkj]

/-- C7, dialing A and B from a fresh node. -/
theorem connect_installs_peer_witness :
    ((Connect.dial { PubKey := none, Base58Adr := [], NetAddr := "10.0.0.2:2448" }).run envAB
      ((Connect.dial { PubKey := none, Base58Adr := [], NetAddr := "10.0.0.1:2448" }).run envAB
        fresh)).RemoteCons.lookup 1 = some (some { Idx := 1, Con := conA }) ∧
    ((Connect.dial { PubKey := none, Base58Adr := [], NetAddr := "10.0.0.2:2448" }).run envAB
      ((Connect.dial { PubKey := none, Base58Adr := [], NetAddr := "10.0.0.1:2448" }).run envAB
        fresh)).RemoteCons.lookup 2 = some (some { Idx := 2, Con := conB }) :=
  have t := connect_installs_peer envAB fresh
    (.dial { PubKey := none, Base58Adr := [], NetAddr := "10.0.0.1:2448" })
    (.dial { PubKey := none, Base58Adr := [], NetAddr := "10.0.0.2:2448" })
    1 2 conA conB ⟨rfl, rfl⟩ ⟨rfl, rfl⟩ (by decide)
  ⟨t.2.2.2.1, t.2.2.2.2.1⟩

/-! ## `GetConnectedPeerList` -/

theorem peerInfos_registry (order : List (Sigma fun _ : uint32 => Option RemotePeer)) :
    ∀ (nd : LitNode) (peers : List PeerInfo),
      (peerInfos nd order peers).1.RemoteCons = nd.RemoteCons ∧
      (peerInfos nd order peers).1.OmniOut = nd.OmniOut ∧
      ∃ evs, (peerInfos nd order peers).1.Trace = nd.Trace ++ evs ∧ writes evs = [] ∧
        spawns evs = [] ∧ ∀ held, (evs = [] ∨ guarded held evs = held) := by
  induction order with
  | nil => intro nd peers; exact ⟨rfl, rfl, [], by simp [peerInfos], rfl, rfl, fun _ => Or.inl rfl⟩
  | cons e rest ih =>
    intro nd peers
    obtain ⟨k, v⟩ := e
    cases v with
    | none =>
      exact ⟨rfl, rfl, [.mapNext k], rfl, rfl, rfl, fun held => Or.inr (by simp [guarded])⟩
    | some v =>
      obtain ⟨h1, h2, evs, h3, h4, h5, h6⟩ := ih (emit nd (.mapNext k))
        (peers ++ [{ PeerNumber := k, RemoteHost := v.Con.RemoteAddr }])
      refine ⟨h1, h2, .mapNext k :: evs, ?_, ?_, ?_, ?_⟩
      · rw [peerInfos, h3]; simp [emit]
      · simpa [writes] using h4
      · simpa [spawns] using h5
      · intro held
        right
        rcases h6 held with rfl | h
        · simp [guarded]
        · cases held <;> simp_all [guarded]

theorem peerInfos_ok (order : List (Sigma fun _ : uint32 => Option RemotePeer))
    (h : ∀ e ∈ order, e.2.isSome = true) :
    ∀ (nd : LitNode) (peers : List PeerInfo),
      (peerInfos nd order peers).2 = some (peers ++ order.filterMap fun e =>
        e.2.map fun v => { PeerNumber := e.1, RemoteHost := v.Con.RemoteAddr }) := by
  induction order with
  | nil => intro nd peers; simp [peerInfos]
  | cons e rest ih =>
    intro nd peers
    obtain ⟨k, v⟩ := e
    have hv := h ⟨k, v⟩ (List.mem_cons_self _ _)
    cases v with
    | none => simp at hv
    | some v =>
      rw [peerInfos, ih (fun e he => h e (List.mem_cons_of_mem _ he))]
      simp

theorem snapshot_numbers (order : List (Sigma fun _ : uint32 => Option RemotePeer))
    (h : ∀ e ∈ order, e.2.isSome = true) :
    (order.filterMap fun e =>
      e.2.map fun v => ({ PeerNumber := e.1, RemoteHost := v.Con.RemoteAddr } : PeerInfo)).map
        PeerInfo.PeerNumber = order.map Sigma.fst := by
  induction order with
  | nil => rfl
  | cons e rest ih =>
    obtain ⟨k, v⟩ := e
    have hv := h ⟨k, v⟩ (List.mem_cons_self _ _)
    cases v with
    | none => simp at hv
    | some v =>
      simp only [List.filterMap_cons, Option.map_some', List.map_cons]
      rw [ih (fun e he => h e (List.mem_cons_of_mem _ he))]

/-- C8: on a registry without nil entries, and for any order in which
`range` hands out the entries, `GetConnectedPeerList` returns a list whose
peer numbers are the keys of the registry, each once; every element has the
remote address of the connection stored under its number; the registry is
not modified; a second call, whatever its order, returns the same elements
up to order; and on an empty registry the list is empty. -/
theorem GetConnectedPeerList_snapshot (nd : LitNode)
    (order : List (Sigma fun _ : uint32 => Option RemotePeer))
    (hn : NoNil nd.RemoteCons) (ho : order.Perm nd.RemoteCons.entries) :
    ∃ peers, (GetConnectedPeerList nd order).2 = some peers ∧
      (peers.map PeerInfo.PeerNumber).Perm nd.RemoteCons.keys ∧
      (peers.map PeerInfo.PeerNumber).Nodup ∧
      (∀ info ∈ peers, ∃ p, nd.RemoteCons.lookup info.PeerNumber = some (some p) ∧
        info.RemoteHost = p.Con.RemoteAddr) ∧
      (∀ k p, nd.RemoteCons.lookup k = some (some p) →
        { PeerNumber := k, RemoteHost := p.Con.RemoteAddr } ∈ peers) ∧
      (GetConnectedPeerList nd order).1.RemoteCons = nd.RemoteCons ∧
      (∀ order2 : List (Sigma fun _ : uint32 => Option RemotePeer),
        order2.Perm nd.RemoteCons.entries →
        ∃ peers2, (GetConnectedPeerList (GetConnectedPeerList nd order).1 order2).2 = some peers2 ∧
          peers2.Perm peers) ∧
      (nd.RemoteCons = ∅ → peers = []) := by
  have hsome : ∀ e ∈ order, e.2.isSome = true := fun e he => hn e (ho.subset he)
  have hres : ∀ (nd0 : LitNode) (o : List (Sigma fun _ : uint32 => Option RemotePeer)),
      (∀ e ∈ o, e.2.isSome = true) →
      (GetConnectedPeerList nd0 o).2 = some (o.filterMap fun e =>
        e.2.map fun v => { PeerNumber := e.1, RemoteHost := v.Con.RemoteAddr }) := by
    intro nd0 o h
    rw [GetConnectedPeerList, peerInfos_ok o h]
    simp
  refine ⟨_, hres nd order hsome, ?_, ?_, ?_, ?_, ?_, ?_, ?_⟩
  · rw [snapshot_numbers order hsome]
    exact ho.map _
  · rw [snapshot_numbers order hsome]
    exact (ho.map Sigma.fst).nodup_iff.mpr nd.RemoteCons.keys_nodup
  · intro info hi
    simp only [List.mem_filterMap, Option.map_eq_some'] at hi
    obtain ⟨⟨k, v⟩, he, p, hp, rfl⟩ := hi
    simp only at hp
    subst hp
    exact ⟨p, AList.mem_lookup_iff.mpr (ho.subset he), rfl⟩
  · intro k p hl
    simp only [List.mem_filterMap, Option.map_eq_some']
    exact ⟨⟨k, some p⟩, ho.symm.subset (AList.mem_lookup_iff.mp hl), p, rfl, rfl⟩
  · exact (peerInfos_registry order _ []).1
  · intro order2 ho2
    refine ⟨_, hres _ order2 (fun e he => hn e (ho2.subset he)), ?_⟩
    exact (ho2.trans ho.symm).filterMap _
  · intro he
    rw [he] at ho
    have : order = [] := List.Perm.eq_nil ho
    subst this
    rfl

/-- C8, on the node connected to A and B, with `range` starting at A. -/
theorem GetConnectedPeerList_snapshot_witness :
    NoNil nodeAB.RemoteCons ∧
    (GetConnectedPeerList nodeAB [⟨1, some { Idx := 1, Con := conA }⟩,
      ⟨2, some { Idx := 2, Con := conB }⟩]).2 =
      some [{ PeerNumber := 1, RemoteHost := "10.0.0.1:2448" },
        { PeerNumber := 2, RemoteHost := "10.0.0.2:2448" }] ∧
    ∃ peers, (GetConnectedPeerList nodeAB [⟨1, some { Idx := 1, Con := conA }⟩,
        ⟨2, some { Idx := 2, Con := conB }⟩]).2 = some peers ∧
      (peers.map PeerInfo.PeerNumber).Perm nodeAB.RemoteCons.keys :=
  have hn : NoNil nodeAB.RemoteCons := by decide
  have ho : List.Perm [(⟨1, some { Idx := 1, Con := conA }⟩ :
      Sigma fun _ : uint32 => Option RemotePeer), ⟨2, some { Idx := 2, Con := conB }⟩]
      nodeAB.RemoteCons.entries := by decide
  have t := GetConnectedPeerList_snapshot nodeAB _ hn ho
  ⟨hn, by decide, t.imp fun _ h => ⟨h.1, h.2.1⟩⟩

/-! ## The mutex around the registry -/

theorem GetConnectedPeerList_trace (nd : LitNode)
    (order : List (Sigma fun _ : uint32 => Option RemotePeer)) :
    ∃ evs, since nd (GetConnectedPeerList nd order).1 = .lock :: .unlock :: .mapRange :: evs := by
  obtain ⟨_, _, evs, h, -⟩ := peerInfos_registry order (emit (Unlock (Lock nd)) .mapRange) []
  refine ⟨evs, since_of_trace _ ?_⟩
  rw [GetConnectedPeerList, h]
  simp [emit, Lock, Unlock]

theorem ConnectedToPeer_guarded (nd : LitNode) (peer : uint32) :
    guarded false (since nd (ConnectedToPeer nd peer).1) = true := by
  rw [since_of_trace ([.lock, .mapLoad peer, .unlock]) (by rw [ConnectedToPeer_eq])]
  rfl

theorem OutMessagerStep_guarded (env : Env) (nd : LitNode) (msg : LitMsg) :
    guarded false (since nd (OutMessagerStep env nd msg).1) = true := by
  rcases hl : nd.RemoteCons.lookup msg.PeerIdx with _ | _ | p
  · rw [since_of_trace _ (congrArg (fun r => r.1.Trace) (OutMessagerStep_absent env nd msg hl))]
    rfl
  · rw [since_of_trace _ (congrArg (fun r => r.1.Trace) (OutMessagerStep_nil env nd msg hl))]
    rfl
  · rw [since_of_trace _ (congrArg (fun r => r.1.Trace) (OutMessagerStep_present env nd msg p hl))]
    cases env.Write (writes nd.Trace) p.Con (msg.MsgType :: msg.Data) <;> rfl

theorem DialPeer_guarded (env : Env) (nd : LitNode) (lnAdr : LNAdr) :
    guarded false (since nd (DialPeer env nd lnAdr).1) = true := by
  unfold DialPeer
  simp only
  rcases env.Dial (IdKey env) lnAdr.NetAddr
      (match lnAdr.PubKey with
        | some pk => pk
        | none => lnAdr.Base58Adr) with e1 | c
  · simp [since, guarded]
  · simp only
    rcases env.GetPeerIdx c.RemotePub c.RemoteAddr with e2 | i
    · simp [since, guarded]
    · simp [since, guarded, emit, Lock, Unlock, mapSet]

theorem TCPListenerStep_guarded (env : Env) (nd : LitNode) (a : Accepted) :
    guarded false (since nd (TCPListenerStep env nd a)) = true := by
  cases a with
  | err e => simp [TCPListenerStep, since, guarded, emit]
  | other => simp [TCPListenerStep, since, guarded, emit]
  | conn c =>
    unfold TCPListenerStep
    simp only
    rcases env.GetPeerIdx c.RemotePub "" with e2 | i
    · simp [since, guarded, emit]
    · simp [since, guarded, emit, Lock, Unlock, mapSet]

/-- C9, where it fails: on the node connected to A and B,
`GetConnectedPeerList` locks, unlocks at once, and only then ranges over
the registry; and so on every node and for every `range` order its
accesses are not guarded by the mutex, while those of `ConnectedToPeer`,
`DialPeer`, the accept loop and the dispatcher are. -/
theorem GetConnectedPeerList_ranges_unlocked :
    since nodeAB (GetConnectedPeerList nodeAB regAB.entries).1 =
      [.lock, .unlock, .mapRange, .mapNext 2, .mapNext 1] ∧
    guarded false (since nodeAB (GetConnectedPeerList nodeAB regAB.entries).1) = false ∧
    (∀ (nd : LitNode) (order : List (Sigma fun _ : uint32 => Option RemotePeer)),
      guarded false (since nd (GetConnectedPeerList nd order).1) = false) ∧
    (∀ (env : Env) (nd : LitNode),
      (∀ peer, guarded false (since nd (ConnectedToPeer nd peer).1) = true) ∧
      (∀ lnAdr, guarded false (since nd (DialPeer env nd lnAdr).1) = true) ∧
      (∀ a, guarded false (since nd (TCPListenerStep env nd a)) = true) ∧
      (∀ msg, guarded false (since nd (OutMessagerStep env nd msg).1) = true)) := by
  refine ⟨by decide, by decide, ?_, fun env nd => ⟨ConnectedToPeer_guarded nd,
    DialPeer_guarded env nd, TCPListenerStep_guarded env nd, OutMessagerStep_guarded env nd⟩⟩
  intro nd order
  obtain ⟨evs, h⟩ := GetConnectedPeerList_trace nd order
  rw [h]
  simp [guarded]

/-! ## The registry only grows -/

theorem noNil_iff (reg : Registry) : NoNil reg ↔ ∀ k, reg.lookup k ≠ some none := by
  constructor
  · intro h k hk
    have := h ⟨k, none⟩ (AList.mem_lookup_iff.mp hk)
    simp at this
  · intro h e he
    obtain ⟨k, v⟩ := e
    cases v with
    | none => exact absurd (AList.mem_lookup_iff.mpr he) (h k)
    | some v => rfl

theorem noNil_insert (reg : Registry) (i : uint32) (p : RemotePeer) (h : NoNil reg) :
    NoNil (reg.insert i (some p)) := by
  rw [noNil_iff] at h ⊢
  intro k
  rw [lookup_install]
  by_cases hk : k = i
  · simp [hk]
  · simpa [hk] using h k

theorem OutMessagerStep_registry (env : Env) (nd : LitNode) (msg : LitMsg) :
    (OutMessagerStep env nd msg).1.RemoteCons = nd.RemoteCons := by
  rcases hl : nd.RemoteCons.lookup msg.PeerIdx with _ | _ | p
  · rw [OutMessagerStep_absent env nd msg hl]
  · rw [OutMessagerStep_nil env nd msg hl]
  · rw [OutMessagerStep_present env nd msg p hl]

theorem DialPeer_cases (env : Env) (nd : LitNode) (lnAdr : LNAdr) :
    (∃ e, DialPeer env nd lnAdr = (nd, some e)) ∨
      ∃ (i : uint32) (c : LNDConn), Connect.Resolves env i c (.dial lnAdr) := by
  rcases hd : env.Dial (IdKey env) lnAdr.NetAddr
      (match lnAdr.PubKey with
        | some pk => pk
        | none => lnAdr.Base58Adr) with e1 | c
  · left
    refine ⟨e1, ?_⟩
    unfold DialPeer
    simp only
    rw [hd]
  · rcases hg : env.GetPeerIdx c.RemotePub c.RemoteAddr with e2 | i
    · left
      refine ⟨e2, ?_⟩
      unfold DialPeer
      simp only
      rw [hd]
      simp only
      rw [hg]
    · exact Or.inr ⟨i, c, hd, hg⟩

theorem op_run_registry (env : Env) (op : Op) (nd : LitNode) :
    (op.run env nd).RemoteCons = nd.RemoteCons ∨
      ∃ (i : uint32) (p : RemotePeer), (op.run env nd).RemoteCons = nd.RemoteCons.insert i (some p) := by
  cases op with
  | accept a =>
    cases a with
    | err e => exact Or.inl rfl
    | other => exact Or.inl rfl
    | conn c =>
      rcases hg : env.GetPeerIdx c.RemotePub "" with e2 | i
      · left; simp [Op.run, TCPListenerStep, hg, emit]
      · right; exact ⟨i, _, by rw [Op.run, TCPListenerStep_ok env nd c i hg]⟩
  | dial lnAdr =>
    rcases DialPeer_cases env nd lnAdr with ⟨e, he⟩ | ⟨i, c, hic⟩
    · left; rw [Op.run, he]
    · right; exact ⟨i, _, by rw [Op.run, DialPeer_ok env nd lnAdr c i hic]⟩
  | dispatch =>
    left
    rcases hq : nd.OmniOut with _ | ⟨msg, rest⟩
    · simp [Op.run, hq]
    · simp only [Op.run, hq]
      exact OutMessagerStep_registry env _ msg
  | peerList order => exact Or.inl (peerInfos_registry order _ []).1
  | connected peer => left; rw [Op.run, ConnectedToPeer_eq]
  | sendChat peer chat =>
    left
    by_cases h : peer ∈ nd.RemoteCons
    · rw [Op.run, SendChat_present env nd peer chat h]
    · rw [Op.run, SendChat_absent env nd peer chat h]

theorem op_run_grows (env : Env) (op : Op) (nd : LitNode) :
    (∀ k, k ∈ nd.RemoteCons → k ∈ (op.run env nd).RemoteCons) ∧
    (NoNil nd.RemoteCons → NoNil (op.run env nd).RemoteCons) := by
  rcases op_run_registry env op nd with h | ⟨i, p, h⟩
  · rw [h]; exact ⟨fun _ hk => hk, fun hn => hn⟩
  · rw [h]
    exact ⟨fun k hk => (AList.mem_insert _).mpr (Or.inr hk), noNil_insert _ i p⟩

theorem runAll_grows (env : Env) (ops : List Op) :
    ∀ nd : LitNode,
      (∀ k, k ∈ nd.RemoteCons → k ∈ (runAll env nd ops).RemoteCons) ∧
      (NoNil nd.RemoteCons → NoNil (runAll env nd ops).RemoteCons) := by
  induction ops with
  | nil => intro nd; exact ⟨fun _ hk => hk, fun hn => hn⟩
  | cons op rest ih =>
    intro nd
    obtain ⟨g1, g2⟩ := op_run_grows env op nd
    obtain ⟨r1, r2⟩ := ih (op.run env nd)
    exact ⟨fun k hk => r1 k (g1 k hk), fun hn => r2 (g2 hn)⟩

/-- C10: every operation leaves each key of the registry in place and, on
a registry without nil entries, stores none.  So, starting from a registry
without nil entries (an empty one, when the node starts) and running any
operations before the dispatcher's membership check and any operations
between that check and its lookup: once `ConnectedToPeer` has returned true
for the index of the envelope, every key present at the check is present at
the lookup, the registry has no nil entry, the lookup under the lock finds
a peer, and the rest of the iteration does not panic. -/
theorem registry_only_grows (env : Env) (nd : LitNode) (before between : List Op)
    (msg : LitMsg) (h0 : NoNil nd.RemoteCons)
    (hc : (ConnectedToPeer (runAll env nd before) msg.PeerIdx).2 = true) :
    (∀ (op : Op) (nd0 : LitNode),
      (∀ k, k ∈ nd0.RemoteCons → k ∈ (op.run env nd0).RemoteCons) ∧
      (NoNil nd0.RemoteCons → NoNil (op.run env nd0).RemoteCons)) ∧
    (∀ k, k ∈ (runAll env nd before).RemoteCons →
      k ∈ (runAll env (ConnectedToPeer (runAll env nd before) msg.PeerIdx).1
        between).RemoteCons) ∧
    NoNil (runAll env (ConnectedToPeer (runAll env nd before) msg.PeerIdx).1
      between).RemoteCons ∧
    (∃ p, (mapGet (Lock (runAll env (ConnectedToPeer (runAll env nd before) msg.PeerIdx).1
      between)) msg.PeerIdx).2 = some p) ∧
    (OutMessagerSend env (runAll env (ConnectedToPeer (runAll env nd before) msg.PeerIdx).1
      between) msg).2 = none := by
  have hb := (runAll_grows env before nd).2 h0
  obtain ⟨g1, g2⟩ := runAll_grows env between
    (ConnectedToPeer (runAll env nd before) msg.PeerIdx).1
  have hreg : (ConnectedToPeer (runAll env nd before) msg.PeerIdx).1.RemoteCons =
      (runAll env nd before).RemoteCons := by rw [ConnectedToPeer_eq]
  rw [hreg] at g1 g2
  have hk : msg.PeerIdx ∈ (runAll env nd before).RemoteCons := by
    rw [ConnectedToPeer_eq] at hc
    exact AList.lookup_isSome.mp hc
  have hn := g2 hb
  have hl : ∃ p, (runAll env (ConnectedToPeer (runAll env nd before) msg.PeerIdx).1
      between).RemoteCons.lookup msg.PeerIdx = some (some p) := by
    have hm := AList.lookup_isSome.mpr (g1 _ hk)
    rcases hv : (runAll env (ConnectedToPeer (runAll env nd before) msg.PeerIdx).1
      between).RemoteCons.lookup msg.PeerIdx with _ | _ | p
    · rw [hv] at hm; simp at hm
    · exact absurd hv ((noNil_iff _).mp hn _)
    · exact ⟨p, rfl⟩
  obtain ⟨p, hp⟩ := hl
  refine ⟨op_run_grows env, g1, hn, ⟨p, by simp [mapGet, Lock, emit, hp]⟩, ?_⟩
  simp only [OutMessagerSend, mapGet, Lock, emit, hp, Option.join]
  simp

/-- C10, from a fresh node: A is dialed, the dispatcher checks index 1, then
B is dialed, A connects again from its side, the peers are listed and a chat
is queued; the lookup of index 1 still finds a peer. -/
theorem registry_only_grows_witness :
    NoNil fresh.RemoteCons ∧
    (ConnectedToPeer (runAll envAB fresh
      [.dial { PubKey := none, Base58Adr := [], NetAddr := "10.0.0.1:2448" }]) 1).2 = true ∧
    (OutMessagerSend envAB (runAll envAB (ConnectedToPeer (runAll envAB fresh
      [.dial { PubKey := none, Base58Adr := [], NetAddr := "10.0.0.1:2448" }]) 1).1
      [.dial { PubKey := none, Base58Adr := [], NetAddr := "10.0.0.2:2448" },
        .accept (.conn conA), .peerList regAB.entries, .sendChat 2 "hi", .dispatch])
      { PeerIdx := 1, MsgType := 5, Data := [1] }).2 = none :=
  have h0 : NoNil fresh.RemoteCons := by decide
  have hc : (ConnectedToPeer (runAll envAB fresh
      [.dial { PubKey := none, Base58Adr := [], NetAddr := "10.0.0.1:2448" }])
      ({ PeerIdx := 1, MsgType := 5, Data := [1] } : LitMsg).PeerIdx).2 = true := by decide
  ⟨h0, hc, (registry_only_grows envAB fresh
    [.dial { PubKey := none, Base58Adr := [], NetAddr := "10.0.0.1:2448" }]
    [.dial { PubKey := none, Base58Adr := [], NetAddr := "10.0.0.2:2448" },
      .accept (.conn conA), .peerList regAB.entries, .sendChat 2 "hi", .dispatch]
    { PeerIdx := 1, MsgType := 5, Data := [1] } h0 hc).2.2.2.2⟩

end qln
